/-
Verification of the per-image catalog pipeline of `fits_align/imgcat.py`
(class `ImgCat`): star-list construction, quad escalation state machine,
and deduplication semantics.

Modelling conventions:
* Python floats are modelled by `ℚ` (exact rational arithmetic).
* The `star` and `quad` helper modules are not part of the sources under
  verification; the functions of theirs that `imgcat.py` calls
  (`readsexcat`, `sortstarlistbyflux`, `area`, `makequads1`, `makequads2`,
  `removeduplicates`) are modelled from the specification, each marked
  `Modelled from the spec:` in its doc comment.
* Mutation of the `ImgCat` object is modelled by explicit state passing:
  each method takes the catalog state and returns the updated state
  (together with its Python return value, if any).
-/
import Mathlib

namespace FitsAlign

/-- One detected point source: position `(x, y)`, flux, and a small integer
quality flag (0 = best), as in the spec data model. -/
structure Star where
  x : ℚ
  y : ℚ
  flux : ℚ
  flag : ℕ
deriving DecidableEq, Repr

/-- A quad: the four member stars (in generation order) together with the
scale-rotation-translation-invariant descriptor (4 scalars). -/
structure Quad where
  stars : List Star
  descriptor : ℚ × ℚ × ℚ × ℚ
deriving DecidableEq, Repr

/-- Squared Euclidean distance between two stars (exact in `ℚ`; comparisons
of distances are made on squares so no square root is needed). -/
def dist2 (a b : Star) : ℚ :=
  (a.x - b.x) ^ 2 + (a.y - b.y) ^ 2

/-- The suffix of `p` after the last `'/'` — the `tail` component of
`os.path.split(p)` (POSIX): `i = p.rfind(sep) + 1; tail = p[i:]`. -/
def pathTail (p : String) : String :=
  String.mk ((p.toList.reverse.takeWhile (fun c => c ≠ '/')).reverse)

/-- The `root` component of `os.path.splitext` applied to a string without
path separators, following CPython `genericpath._splitext`: split at the
last dot, unless every character before that dot is itself a dot (so that
names such as `.bashrc` or `...` keep their dots). -/
def splitextRoot (f : String) : String :=
  let cs := f.toList
  if '.' ∈ cs then
    let extLen := (cs.reverse.takeWhile (fun c => c ≠ '.')).length
    let root := cs.take (cs.length - extLen - 1)
    if root.any (fun c => c ≠ '.') then String.mk root else f
  else f

/-- Flux ranking order: `fluxGe a b` holds when `a` has at least the flux of
`b`, so that a list sorted by `fluxGe` is in non-increasing flux order. -/
def fluxGe (a b : Star) : Prop := b.flux ≤ a.flux

instance : DecidableRel fluxGe := fun a b =>
  inferInstanceAs (Decidable (b.flux ≤ a.flux))

instance : IsTotal Star fluxGe := ⟨fun a b => le_total b.flux a.flux⟩

instance : IsTrans Star fluxGe := ⟨fun _ _ _ h1 h2 => le_trans h2 h1⟩

/-- Modelled from the spec: `star.readsexcat` is not among the sources under
verification. Per §4.1 it filters the raw catalog, excluding stars whose
quality flag exceeds the threshold `maxflag`. -/
def readsexcat (cat : List Star) (maxflag : ℕ) : List Star :=
  cat.filter (fun s => s.flag ≤ maxflag)

/-- Modelled from the spec: the default quality-flag threshold of the star
filter, "the default (7)" of §4.1. `imgcat.py` calls `readsexcat` without
passing a threshold, so this default is the one in effect. -/
def readsexcatDefaultMaxflag : ℕ := 7

/-- Modelled from the spec: `star.sortstarlistbyflux` is not among the
sources under verification. Per §4.1 it sorts stars by descending flux with
a stable sort (ties keep original catalog order), modelled by the stable
insertion sort under `fluxGe`. -/
def sortstarlistbyflux (stars : List Star) : List Star :=
  List.insertionSort fluxGe stars

/-- Modelled from the spec: one axis of the bounding-box expansion of §4.1:
expand outward by `border` of the span; a zero span is widened to a minimal
default span (here 1 unit, centred) to keep the box non-degenerate. -/
def expandAxis (lo hi border : ℚ) : ℚ × ℚ :=
  if hi - lo = 0 then (lo - 1 / 2, hi + 1 / 2)
  else (lo - border * (hi - lo), hi + border * (hi - lo))

/-- Modelled from the spec: `star.area` is not among the sources under
verification. Per §4.1 it computes the min/max of x and y over the kept
stars and expands each axis outward by the fractional `border`, returning
`(xmin, xmax, ymin, ymax)`. -/
def area (stars : List Star) (border : ℚ) : ℚ × ℚ × ℚ × ℚ :=
  match stars with
  | [] => (0, 0, 0, 0)
  | s :: rest =>
    let xmin := rest.foldl (fun m t => min m t.x) s.x
    let xmax := rest.foldl (fun m t => max m t.x) s.x
    let ymin := rest.foldl (fun m t => min m t.y) s.y
    let ymax := rest.foldl (fun m t => max m t.y) s.y
    let xb := expandAxis xmin xmax border
    let yb := expandAxis ymin ymax border
    (xb.1, xb.2, yb.1, yb.2)

/-- The error taxonomy of §7 that star-list construction can surface. -/
inductive CatError where
  | EmptyCatalog
deriving DecidableEq, Repr

/-- Every `k`-th element of a list, starting at the first (indices divisible
by `k`). -/
def everyNth {α : Type} (k : ℕ) (l : List α) : List α :=
  (l.enum.filter (fun p => p.1 % k == 0)).map Prod.snd

/-- Distance ordering around an anchor star `s`, on squared distances. -/
def distLe (s t u : Star) : Prop := dist2 s t ≤ dist2 s u

instance (s : Star) : DecidableRel (distLe s) := fun t u =>
  inferInstanceAs (Decidable (dist2 s t ≤ dist2 s u))

/-- Modelled from the spec: the neighbor selection of §4.2 (the quad module
is not among the sources under verification). For an anchor `s`: the stars
other than `s` at distance at least `d` from it (compared on squared
distances), ordered by increasing distance from `s`, thinned to every
`stride`-th candidate and truncated to the `n` nearest. -/
def neighbors (stars : List Star) (s : Star) (n stride : ℕ) (d : ℚ) :
    List Star :=
  let cands := stars.filter (fun t => decide (t ≠ s) && decide (d ^ 2 ≤ dist2 s t))
  (everyNth stride (List.insertionSort (distLe s) cands)).take n

/-- All unordered pairs of list elements, in order of first occurrence. -/
def allPairs : List Star → List (Star × Star)
  | [] => []
  | a :: t => t.map (fun b => (a, b)) ++ allPairs t

/-- The pair of members with the greatest mutual separation (first-found
pair kept on ties, a fixed documented tie-break per §9). -/
def maxSepPair (l : List Star) : Option (Star × Star) :=
  (allPairs l).foldl
    (fun acc p =>
      match acc with
      | none => some p
      | some q => if dist2 q.1 q.2 < dist2 p.1 p.2 then some p else some q)
    none

/-- Coordinates of star `p` in the local frame whose origin is star `a` and
whose unit along the line to star `b` (§4.2), exact in `ℚ`. -/
def frameCoord (a b p : Star) : ℚ × ℚ :=
  let den := dist2 a b
  (((p.x - a.x) * (b.x - a.x) + (p.y - a.y) * (b.y - a.y)) / den,
   ((p.y - a.y) * (b.x - a.x) - (p.x - a.x) * (b.y - a.y)) / den)

/-- Modelled from the spec: quad construction with degenerate rejection and
invariant-descriptor computation (§4.2). A candidate two of whose members
coincide is rejected (zero separation; in exact arithmetic the near-zero
frame instability is the zero denominator); otherwise the two most separated
members define the frame and the frame coordinates of the remaining two
members form the descriptor. -/
def mkquad (stars : List Star) : Option Quad :=
  if (allPairs stars).any (fun p => dist2 p.1 p.2 == 0) then none
  else
    match maxSepPair stars with
    | none => none
    | some (a, b) =>
      match ((stars.erase a).erase b).map (frameCoord a b) with
      | [(u1, v1), (u2, v2)] => some ⟨stars, (u1, v1, u2, v2)⟩
      | _ => none

/-- Modelled from the spec: `quad.makequads1` is not among the sources under
verification. Level-0 "dense local" strategy (§4.2): for each star, form
quads from the star together with each choice of 3 of its `n` nearest
neighbors that are at least `d` apart from it. -/
def makequads1 (stars : List Star) (n : ℕ) (d : ℚ) : List Quad :=
  stars.flatMap (fun s =>
    (List.sublistsLen 3 (neighbors stars s n 1 d)).filterMap
      (fun c => mkquad (s :: c)))

/-- Modelled from the spec: `quad.makequads2` is not among the sources under
verification. Widened strategies (§4.2): the same neighbor-based
construction operating on the sublist of every `f`-th star by flux rank,
with neighbor count `n`, positional stride `s` (the source passes `s` only
at level 4; stride 1 — no thinning — is the modelled default elsewhere) and
distance threshold `d`. -/
def makequads2 (stars : List Star) (f n s : ℕ) (d : ℚ) : List Quad :=
  let sub := everyNth f stars
  sub.flatMap (fun a =>
    (List.sublistsLen 3 (neighbors sub a n s d)).filterMap
      (fun c => mkquad (a :: c)))

/-- Modelled from the spec: the quad-identity rule of §4.3. Two quads are
duplicates iff their member-star collections agree as sets, regardless of
order (the members of a valid quad are distinct, so the multiset equality
used here — the content-addressed sorted-identities key §4.3 recommends —
is exactly set equality there). -/
def samestars (q r : Quad) : Bool :=
  decide ((q.stars : Multiset Star) = (r.stars : Multiset Star))

/-- Modelled from the spec: `quad.removeduplicates` is not among the sources
under verification. Per §4.3 it keeps exactly one quad per distinct
member-star set, preserving first-seen order. -/
def removeduplicates : List Quad → List Quad
  | [] => []
  | q :: qs => q :: removeduplicates (qs.filter (fun r => ! samestars q r))
termination_by l => l.length
decreasing_by
  simp only [List.length_cons]
  exact Nat.lt_succ_of_le (List.length_filter_le _ _)

/-- The state of one `ImgCat` object (`imgcat.py`, class `ImgCat`). -/
structure ImgCat where
  filepath : String
  name : String
  hdu : ℕ
  cat : List Star
  starlist : List Star
  mindist : ℚ
  xlim : ℚ × ℚ
  ylim : ℚ × ℚ
  quadlist : List Quad
  quadlevel : ℕ
deriving DecidableEq, Repr

namespace ImgCat

/-- `ImgCat.__init__` (imgcat.py lines 34-60): the name is the source file
name without directory and extension; star list and quad list start empty,
`mindist` at `0.0`, both axis limits at `(0.0, 0.0)`, `quadlevel` at `0`.
The raw catalog `cat` (an opaque SExtractor table in Python, here the fixed
schema of the spec) is stored as passed. -/
def init (filepath : String) (hdu : ℕ) (cat : List Star) : ImgCat :=
  { filepath := filepath
    name := splitextRoot (pathTail filepath)
    hdu := hdu
    cat := cat
    starlist := []
    mindist := 0
    xlim := (0, 0)
    ylim := (0, 0)
    quadlist := []
    quadlevel := 0 }

/-- `ImgCat.makestarlist` (imgcat.py lines 73-88). The source computes
`maxflag = 3 if skipsaturated else 7` (lines 75-78) but never passes it on:
the call `star.readsexcat(mycat=self.cat)` runs with the default threshold.
The `EmptyCatalog` failure is modelled from the spec (§4.1, §7): when zero
usable stars survive the filter, construction fails and no StarList is
produced (the state is left unchanged); the code raising it is not among
the sources under verification. -/
def makestarlist (ic : ImgCat) (skipsaturated : Bool) (n : ℕ) :
    Except CatError ImgCat :=
  let _maxflag : ℕ := if skipsaturated then 3 else 7
  let usable := readsexcat ic.cat readsexcatDefaultMaxflag
  if usable.isEmpty then Except.error CatError.EmptyCatalog
  else
    let sl := (sortstarlistbyflux usable).take n
    let bb := area sl (1 / 100)
    Except.ok { ic with
      starlist := sl
      xlim := (bb.1, bb.2.1)
      ylim := (bb.2.2.1, bb.2.2.2)
      mindist := min (min (bb.2.1 - bb.1) (bb.2.2.2 - bb.2.2.1) / 10) 30 }

/-- One successful escalation step body (imgcat.py lines 112-114): extend
the quad list with the new batch, deduplicate the whole accumulated list,
advance `quadlevel` by one, and return `True`. -/
def quadStep (ic : ImgCat) (newquads : List Quad) : Bool × ImgCat :=
  (true, { ic with
    quadlist := removeduplicates (ic.quadlist ++ newquads)
    quadlevel := ic.quadlevel + 1 })

/-- `ImgCat.makemorequads` (imgcat.py lines 91-114): dispatch on `quadlevel`
to the level-bound generator parameters (the table of lines 98-107); beyond
level 4 return `False` with the state untouched. -/
def makemorequads (ic : ImgCat) : Bool × ImgCat :=
  if ic.quadlevel = 0 then quadStep ic (makequads1 ic.starlist 7 ic.mindist)
  else if ic.quadlevel = 1 then quadStep ic (makequads2 ic.starlist 3 5 1 ic.mindist)
  else if ic.quadlevel = 2 then quadStep ic (makequads2 ic.starlist 6 5 1 ic.mindist)
  else if ic.quadlevel = 3 then quadStep ic (makequads2 ic.starlist 12 5 1 ic.mindist)
  else if ic.quadlevel = 4 then quadStep ic (makequads2 ic.starlist 10 6 3 ic.mindist)
  else (false, ic)

/-- The batch that the level table of `makemorequads` (imgcat.py lines
98-107) binds to the current escalation level; empty beyond level 4, where
no generation runs. -/
def levelBatch (ic : ImgCat) : List Quad :=
  if ic.quadlevel = 0 then makequads1 ic.starlist 7 ic.mindist
  else if ic.quadlevel = 1 then makequads2 ic.starlist 3 5 1 ic.mindist
  else if ic.quadlevel = 2 then makequads2 ic.starlist 6 5 1 ic.mindist
  else if ic.quadlevel = 3 then makequads2 ic.starlist 12 5 1 ic.mindist
  else if ic.quadlevel = 4 then makequads2 ic.starlist 10 6 3 ic.mindist
  else []

/-- The state after `k` successive `makemorequads` calls (return values
discarded). -/
def iterateQuads (ic : ImgCat) : ℕ → ImgCat
  | 0 => ic
  | Nat.succ k => iterateQuads (makemorequads ic).2 k

end ImgCat

/-! Concrete fixtures used to evaluate the development on closed inputs. -/

/-- A bright star at the origin with the best quality flag. -/
def starA : Star := ⟨0, 0, 5, 0⟩

/-- A star at `(4, 0)` with flux 3 and flag 1. -/
def starB : Star := ⟨4, 0, 3, 1⟩

/-- A star at `(0, 3)` with flux 4 and flag 2. -/
def starC : Star := ⟨0, 3, 4, 2⟩

/-- A star at `(4, 3)` with flux 2 and flag 3. -/
def starD : Star := ⟨4, 3, 2, 3⟩

/-- A freshly constructed catalog over a four-star raw catalog. -/
def icSample : ImgCat := ImgCat.init "/data/img/run1.fits" 0 [starA, starB, starC, starD]

/-- The sample catalog driven to the terminal escalation level. -/
def icExhausted : ImgCat := { icSample with quadlevel := 5 }

/-- The sample catalog with its star list populated, ready for quads. -/
def icQuad : ImgCat := { icSample with starlist := [starA, starB, starC, starD], mindist := 1 }

/-- A fresh catalog over a single-star raw catalog. -/
def icOne : ImgCat := ImgCat.init "one.fits" 0 [⟨0, 0, 1, 0⟩]

/-- The state `makestarlist` produces from `icOne` (zero spans widened to
the default unit span, so `mindist = min (1 / 10) 30`). -/
def icOneBuilt : ImgCat :=
  { icOne with
    starlist := [⟨0, 0, 1, 0⟩]
    mindist := 1 / 10
    xlim := (-(1 / 2), 1 / 2)
    ylim := (-(1 / 2), 1 / 2) }

/-- A catalog whose only raw star carries quality flag 5 (saturated beyond
the strict threshold 3 but within the default 7). -/
def icSat : ImgCat := ImgCat.init "sat.fits" 0 [⟨0, 0, 1, 5⟩]

/-- A catalog whose only raw star carries quality flag 9, so the filter
leaves zero usable stars. -/
def icNoStars : ImgCat := ImgCat.init "empty.fits" 0 [⟨1, 2, 3, 9⟩]

/-! Helper lemmas about the deduplicator. -/

/-- Deduplication only drops elements: the output is a subset of the input. -/
theorem removeduplicates_subset (l : List Quad) :
    ∀ q ∈ removeduplicates l, q ∈ l := by
  induction l using removeduplicates.induct with
  | case1 => rw [removeduplicates]; intro q hq; exact absurd hq (List.not_mem_nil q)
  | case2 a qs ih =>
    rw [removeduplicates]
    intro q hq
    rcases List.mem_cons.mp hq with hq | hq
    · exact hq ▸ List.mem_cons_self a qs
    · exact List.mem_cons_of_mem a (List.mem_of_mem_filter (ih q hq))

/-- The deduplicator's output contains no two quads with the same member
sets. -/
theorem removeduplicates_pairwise (l : List Quad) :
    List.Pairwise (fun a b => samestars a b = false) (removeduplicates l) := by
  induction l using removeduplicates.induct with
  | case1 => rw [removeduplicates]; exact List.Pairwise.nil
  | case2 a qs ih =>
    rw [removeduplicates]
    refine List.Pairwise.cons ?_ ih
    intro b hb
    have hbf := removeduplicates_subset _ b hb
    have := List.of_mem_filter hbf
    simpa using this

/-- A list already free of member-set duplicates passes through a
`filter` against one of its earlier elements unchanged. -/
theorem filter_not_samestars_eq_self {a : Quad} {l : List Quad}
    (h : ∀ b ∈ l, samestars a b = false) :
    l.filter (fun r => ! samestars a r) = l := by
  refine List.filter_eq_self.mpr ?_
  intro b hb
  simp [h b hb]

/-- Deduplicating an already-clean accumulated list followed by a new batch
keeps the accumulated list as a prefix and appends exactly the new quads
that survive deduplication against the union of the accumulated quads and
the earlier part of the batch. -/
theorem removeduplicates_append :
    ∀ old : List Quad, List.Pairwise (fun a b => samestars a b = false) old →
      ∀ new : List Quad,
        removeduplicates (old ++ new) =
          old ++ removeduplicates
            (new.filter (fun r => old.all (fun q => ! samestars q r))) := by
  intro old
  induction old with
  | nil =>
    intro _ new
    simp only [List.nil_append]
    congr 1
    refine (List.filter_eq_self.mpr ?_).symm
    intro b _
    simp
  | cons a old ih =>
    intro h new
    rw [List.cons_append, removeduplicates, List.filter_append,
      filter_not_samestars_eq_self (List.pairwise_cons.mp h).1,
      ih (List.pairwise_cons.mp h).2, List.filter_filter, List.cons_append]
    congr 2
    refine congrArg removeduplicates (List.filter_congr ?_)
    intro r _
    simp [List.all_cons, Bool.and_comm]

/-- For levels 0 through 4 the escalation step is the level table applied
through `quadStep`. -/
theorem makemorequads_of_le4 {ic : ImgCat} (h : ic.quadlevel ≤ 4) :
    ic.makemorequads = ic.quadStep ic.levelBatch := by
  unfold ImgCat.makemorequads ImgCat.levelBatch
  split_ifs <;> first | rfl | omega

/-- Beyond level 4 the escalation step fails and leaves the state intact. -/
theorem makemorequads_of_ge5 {ic : ImgCat} (h : 5 ≤ ic.quadlevel) :
    ic.makemorequads = (false, ic) := by
  unfold ImgCat.makemorequads
  split_ifs <;> first | rfl | omega

/-- The level after one escalation step. -/
theorem makemorequads_quadlevel (ic : ImgCat) :
    ((ImgCat.makemorequads ic).2).quadlevel =
      if ic.quadlevel ≤ 4 then ic.quadlevel + 1 else ic.quadlevel := by
  by_cases h : ic.quadlevel ≤ 4
  · rw [makemorequads_of_le4 h, if_pos h]; rfl
  · rw [makemorequads_of_ge5 (by omega), if_neg h]

/-- The level after `k` escalation steps, from any level at most 5. -/
theorem iterateQuads_quadlevel :
    ∀ (k : ℕ) (ic : ImgCat), ic.quadlevel ≤ 5 →
      (ic.iterateQuads k).quadlevel = min (ic.quadlevel + k) 5 := by
  intro k
  induction k with
  | zero => intro ic h; simp [ImgCat.iterateQuads]; omega
  | succ k ih =>
    intro ic h
    rw [ImgCat.iterateQuads, ih _ (by rw [makemorequads_quadlevel]; split_ifs <;> omega),
      makemorequads_quadlevel]
    split_ifs <;> omega

/-- An escalation step preserves the QuadList duplicate-freedom invariant. -/
theorem makemorequads_quadlist_pairwise (ic : ImgCat)
    (h : List.Pairwise (fun a b => samestars a b = false) ic.quadlist) :
    List.Pairwise (fun a b => samestars a b = false) (ic.makemorequads).2.quadlist := by
  by_cases hlev : ic.quadlevel ≤ 4
  · rw [makemorequads_of_le4 hlev]
    exact removeduplicates_pairwise _
  · rw [makemorequads_of_ge5 (by omega)]
    exact h

/-- The QuadList duplicate-freedom invariant (spec §3) holds in every state
reachable from a fresh catalog by escalation steps; this justifies taking
it as a hypothesis on the catalogs the escalation step is applied to. -/
theorem iterateQuads_quadlist_pairwise (fp : String) (hdu : ℕ) (cat : List Star)
    (k : ℕ) :
    List.Pairwise (fun a b => samestars a b = false)
      ((ImgCat.init fp hdu cat).iterateQuads k).quadlist := by
  suffices h : ∀ (k : ℕ) (ic : ImgCat),
      List.Pairwise (fun a b => samestars a b = false) ic.quadlist →
      List.Pairwise (fun a b => samestars a b = false) (ic.iterateQuads k).quadlist by
    exact h k _ List.Pairwise.nil
  intro k
  induction k with
  | zero => intro ic h; exact h
  | succ k ih =>
    intro ic h
    exact ih _ (makemorequads_quadlist_pairwise ic h)

/-! The claims. -/

/-- C1: for every fresh ImageCatalog, calling the escalation step
(`makemorequads`) `k` times yields `quadlevel = min k 5`; every call made
while `quadlevel` is 5 or greater performs no generation, returns failure
(`False`), and leaves the whole state — in particular `quadlevel` and
`quadlist` — unchanged. -/
theorem escalation_monotonicity :
    (∀ (fp : String) (hdu : ℕ) (cat : List Star) (k : ℕ),
      ((ImgCat.init fp hdu cat).iterateQuads k).quadlevel = min k 5) ∧
    (∀ ic : ImgCat, 5 ≤ ic.quadlevel → ic.makemorequads = (false, ic)) := by
  constructor
  · intro fp hdu cat k
    have h0 : (ImgCat.init fp hdu cat).quadlevel = 0 := rfl
    have h := iterateQuads_quadlevel k (ImgCat.init fp hdu cat) (by omega)
    rw [h0] at h
    simpa using h
  · intro ic h
    exact makemorequads_of_ge5 h

/-- Witness for C1 at concrete inputs: seven calls from a fresh catalog
reach level `min 7 5`, and a call at level 5 is a failing no-op. -/
theorem escalation_monotonicity_witness :
    ((ImgCat.init "/data/img/run1.fits" 0 []).iterateQuads 7).quadlevel = min 7 5 ∧
    ImgCat.makemorequads icExhausted = (false, icExhausted) :=
  ⟨escalation_monotonicity.1 "/data/img/run1.fits" 0 [] 7,
   escalation_monotonicity.2 icExhausted (by decide)⟩

/-- C2: for an ImageCatalog at level `L ≤ 4` (satisfying the QuadList
duplicate-freedom invariant), one escalation step runs the quad generator
with the parameter set bound to level `L` (`levelBatch`), deduplicates the
new batch against the union of all previously accumulated quads (and
against the earlier part of the batch itself), appends the surviving quads
to `quadlist`, advances `quadlevel` to exactly `L + 1`, and returns
success (`True`). -/
theorem escalation_step_behavior (ic : ImgCat) (hlev : ic.quadlevel ≤ 4)
    (hclean : List.Pairwise (fun a b => samestars a b = false) ic.quadlist) :
    (ic.makemorequads).1 = true ∧
    (ic.makemorequads).2.quadlevel = ic.quadlevel + 1 ∧
    (ic.makemorequads).2.quadlist =
      ic.quadlist ++ removeduplicates
        (ic.levelBatch.filter (fun r => ic.quadlist.all (fun q => ! samestars q r))) := by
  rw [makemorequads_of_le4 hlev]
  exact ⟨rfl, rfl, removeduplicates_append ic.quadlist hclean ic.levelBatch⟩

/-- Witness for C2: a concrete catalog at level 0 with a clean (empty)
quad list. -/
theorem escalation_step_behavior_witness :
    (ImgCat.makemorequads icQuad).1 = true ∧
    (ImgCat.makemorequads icQuad).2.quadlevel = icQuad.quadlevel + 1 ∧
    (ImgCat.makemorequads icQuad).2.quadlist =
      icQuad.quadlist ++ removeduplicates
        ((ImgCat.levelBatch icQuad).filter
          (fun r => icQuad.quadlist.all (fun q => ! samestars q r))) :=
  escalation_step_behavior icQuad (by decide) (by decide)

/-- C7: after every successful escalation step from a catalog satisfying
the QuadList duplicate-freedom invariant, the quad list contains no two
quads with identical member-star sets, and every quad present before the
step is still present after it. -/
theorem quadlist_dedup_append_only (ic : ImgCat)
    (hclean : List.Pairwise (fun a b => samestars a b = false) ic.quadlist)
    (hsucc : (ic.makemorequads).1 = true) :
    List.Pairwise (fun a b => samestars a b = false) (ic.makemorequads).2.quadlist ∧
    ∀ q ∈ ic.quadlist, q ∈ (ic.makemorequads).2.quadlist := by
  have hlev : ic.quadlevel ≤ 4 := by
    by_contra h
    rw [makemorequads_of_ge5 (by omega)] at hsucc
    exact Bool.false_ne_true hsucc
  rw [makemorequads_of_le4 hlev]
  constructor
  · exact removeduplicates_pairwise _
  · intro q hq
    show q ∈ removeduplicates (ic.quadlist ++ ic.levelBatch)
    rw [removeduplicates_append ic.quadlist hclean ic.levelBatch]
    exact List.mem_append_left _ hq

/-- Witness for C7: the concrete level-0 catalog `icQuad`. -/
theorem quadlist_dedup_append_only_witness :
    List.Pairwise (fun a b => samestars a b = false)
      (ImgCat.makemorequads icQuad).2.quadlist ∧
    ∀ q ∈ icQuad.quadlist, q ∈ (ImgCat.makemorequads icQuad).2.quadlist :=
  quadlist_dedup_append_only icQuad (by decide) (by decide)

/-- C8: an escalation step never mutates the catalog's star list,
`mindist`, bounding-box limits, or name, whether it succeeds or fails. -/
theorem makemorequads_frame (ic : ImgCat) :
    (ic.makemorequads).2.starlist = ic.starlist ∧
    (ic.makemorequads).2.mindist = ic.mindist ∧
    (ic.makemorequads).2.xlim = ic.xlim ∧
    (ic.makemorequads).2.ylim = ic.ylim ∧
    (ic.makemorequads).2.name = ic.name := by
  unfold ImgCat.makemorequads ImgCat.quadStep
  split_ifs <;> exact ⟨rfl, rfl, rfl, rfl, rfl⟩

/-- C3 (code bug): at the failing input `icSat` — a raw catalog holding one
star with quality flag 5 — `makestarlist` with `skipsaturated = true`
succeeds and keeps that star, so the built StarList has a member with
quality flag above 3. The `maxflag` the source computes from
`skipsaturated` (imgcat.py lines 75-78) is never passed to the filter call
on line 79, which runs with the default threshold instead. -/
theorem makestarlist_saturation_bug :
    ∃ ic2, ImgCat.makestarlist icSat true 200 = Except.ok ic2 ∧
      ∃ s ∈ ic2.starlist, 3 < s.flag := by
  refine ⟨_, rfl, ⟨0, 0, 1, 5⟩, ?_, ?_⟩ <;> decide

/-- C4: star-list construction fails with `EmptyCatalog` when the raw
catalog contains zero usable stars after filtering, and in that case
produces no StarList (no updated catalog state is returned). -/
theorem makestarlist_empty_catalog (ic : ImgCat) (skipsaturated : Bool) (n : ℕ)
    (h : readsexcat ic.cat readsexcatDefaultMaxflag = []) :
    ic.makestarlist skipsaturated n = Except.error CatError.EmptyCatalog ∧
    ∀ ic2, ic.makestarlist skipsaturated n ≠ Except.ok ic2 := by
  have h1 : ic.makestarlist skipsaturated n = Except.error CatError.EmptyCatalog := by
    unfold ImgCat.makestarlist
    rw [h]
    rfl
  refine ⟨h1, fun ic2 hc => ?_⟩
  rw [h1] at hc
  exact Except.noConfusion hc

/-- Witness for C4: a raw catalog whose only star has quality flag 9, so
the filter leaves nothing. -/
theorem makestarlist_empty_catalog_witness :
    ImgCat.makestarlist icNoStars true 200 = Except.error CatError.EmptyCatalog ∧
    ∀ ic2, ImgCat.makestarlist icNoStars true 200 ≠ Except.ok ic2 :=
  makestarlist_empty_catalog icNoStars true 200 (by decide)

/-- C5: for every successfully built StarList with bounding box
`(xmin, xmax, ymin, ymax)` (stored as `xlim`, `ylim`), the derived minimum
inter-star distance satisfies
`mindist = min (min (xmax - xmin) (ymax - ymin) / 10) 30`. -/
theorem makestarlist_mindist (ic : ImgCat) (skipsaturated : Bool) (n : ℕ)
    (ic2 : ImgCat) (h : ic.makestarlist skipsaturated n = Except.ok ic2) :
    ic2.mindist =
      min (min (ic2.xlim.2 - ic2.xlim.1) (ic2.ylim.2 - ic2.ylim.1) / 10) 30 := by
  simp only [ImgCat.makestarlist] at h
  split at h
  · exact absurd h (by simp)
  · injection h with h2
    subst h2
    rfl

/-- Witness for C5: the single-star catalog `icOne` builds `icOneBuilt`. -/
theorem makestarlist_mindist_witness :
    icOneBuilt.mindist =
      min (min (icOneBuilt.xlim.2 - icOneBuilt.xlim.1)
        (icOneBuilt.ylim.2 - icOneBuilt.ylim.1) / 10) 30 :=
  makestarlist_mindist icOne false 200 icOneBuilt (by with_unfolding_all rfl)

/-- C6: the built StarList is exactly the first `n` stars of the filtered
raw catalog sorted by non-increasing flux: it is sorted by non-increasing
flux, contains at most `n` stars, and every dropped star's flux is at most
every kept star's flux (the excess lowest-flux stars are the ones
dropped). -/
theorem makestarlist_ranking (ic : ImgCat) (skipsaturated : Bool) (n : ℕ)
    (ic2 : ImgCat) (h : ic.makestarlist skipsaturated n = Except.ok ic2) :
    ic2.starlist =
      (sortstarlistbyflux (readsexcat ic.cat readsexcatDefaultMaxflag)).take n ∧
    List.Sorted fluxGe ic2.starlist ∧
    ic2.starlist.length ≤ n ∧
    ∀ d ∈ (sortstarlistbyflux (readsexcat ic.cat readsexcatDefaultMaxflag)).drop n,
      ∀ k ∈ ic2.starlist, d.flux ≤ k.flux := by
  simp only [ImgCat.makestarlist] at h
  split at h
  · exact absurd h (by simp)
  · injection h with h2
    subst h2
    refine ⟨rfl, ?_, ?_, ?_⟩
    · exact List.Pairwise.sublist (List.take_sublist n _)
        (List.sorted_insertionSort fluxGe _)
    · show ((sortstarlistbyflux _).take n).length ≤ n
      rw [List.length_take]
      exact min_le_left _ _
    · have hs := List.sorted_insertionSort fluxGe
        (readsexcat ic.cat readsexcatDefaultMaxflag)
      rw [← List.take_append_drop n
        (List.insertionSort fluxGe (readsexcat ic.cat readsexcatDefaultMaxflag))] at hs
      have h3 := (List.pairwise_append.mp hs).2.2
      intro d hd k hk
      exact h3 k hk d hd

/-- Witness for C6: the single-star catalog `icOne` builds `icOneBuilt`. -/
theorem makestarlist_ranking_witness :
    icOneBuilt.starlist =
      (sortstarlistbyflux (readsexcat icOne.cat readsexcatDefaultMaxflag)).take 200 ∧
    List.Sorted fluxGe icOneBuilt.starlist ∧
    icOneBuilt.starlist.length ≤ 200 ∧
    ∀ d ∈ (sortstarlistbyflux (readsexcat icOne.cat readsexcatDefaultMaxflag)).drop 200,
      ∀ k ∈ icOneBuilt.starlist, d.flux ≤ k.flux :=
  makestarlist_ranking icOne false 200 icOneBuilt (by with_unfolding_all rfl)

/-- C9: the resulting state of `makestarlist` does not depend on the
`skipsaturated` argument: the `maxflag` computed from it is dropped, so the
runs with `true` and with `false` produce identical results. -/
theorem makestarlist_skipsaturated_independent (ic : ImgCat) (n : ℕ) :
    ic.makestarlist true n = ic.makestarlist false n := rfl

/-- C10: constructing an `ImgCat` sets its name to the final path component
of `filepath` with its extension removed, and initializes `quadlevel` to 0,
`quadlist` and `starlist` to empty, and `mindist` to 0. -/
theorem init_fields (fp : String) (hdu : ℕ) (cat : List Star) :
    (ImgCat.init fp hdu cat).name = splitextRoot (pathTail fp) ∧
    (ImgCat.init fp hdu cat).quadlevel = 0 ∧
    (ImgCat.init fp hdu cat).quadlist = [] ∧
    (ImgCat.init fp hdu cat).starlist = [] ∧
    (ImgCat.init fp hdu cat).mindist = 0 :=
  ⟨rfl, rfl, rfl, rfl, rfl⟩

end FitsAlign
